import Mathlib

/-!
Verification development for the git-bloom-import-upstream tool
(src/bloom/import_upstream.py).  The program is a linear pipeline of
external-tool invocations (git, vcstools, git-buildpackage) glued by
control flow.  We shallowly embed it: results of external calls become
fields of an environment record, side effects become an explicit event
trace, and each section of the source becomes a Lean function returning
the events it emits together with how control leaves it (fall through,
early function return, process exit, or an uncaught exception).
-/

namespace Bloom

/-- Python str.count style helper: Boolean test that one character list
begins with another (used by the substring counter below). -/
def charsPre : List Char → List Char → Bool
  | [], _ => true
  | _ :: _, [] => false
  | a :: as, b :: bs => a == b && charsPre as bs

/-- Auxiliary counter: walks the haystack; the third argument counts
characters still to skip after a match (Python counting of substring
occurrences is non-overlapping). -/
def countSubAux : List Char → List Char → Nat → Nat
  | [], _, _ => 0
  | _ :: t, sub, Nat.succ k => countSubAux t sub k
  | c :: t, sub, 0 =>
    if sub ≠ [] ∧ charsPre sub (c :: t) then
      1 + countSubAux t sub (sub.length - 1)
    else
      countSubAux t sub 0

/-- Embeds Python str.count(sub) for nonempty sub: the number of
non-overlapping occurrences of sub in s. -/
def countSub (s sub : String) : Nat := countSubAux s.data sub.data 0

/-- Splits a character list on a separator character (used to embed
Python str.split for single-character separators). -/
def splitOnChar (c : Char) : List Char → List (List Char)
  | [] => [[]]
  | a :: t =>
    let r := splitOnChar c t
    if a = c then [] :: r
    else
      match r with
      | h :: t2 => (a :: h) :: t2
      | [] => [[a]]

/-- Longest run of leading decimal digits of a character list, together
with the remainder. -/
def takeDigits : List Char → List Char × List Char
  | [] => ([], [])
  | c :: t =>
    if c.isDigit then
      let r := takeDigits t
      (c :: r.1, r.2)
    else ([], c :: t)

/-- Numeric value of a list of decimal digits. -/
def digitsVal (ds : List Char) : Nat :=
  ds.foldl (fun a c => a * 10 + (c.toNat - 48)) 0

/-- A parsed distutils StrictVersion: major.minor[.patch][a|b N].  The
patch defaults to 0; the prerelease pair stores 0 for the a series and
1 for the b series, with its number. -/
structure StrictVer where
  major : Nat
  minor : Nat
  patch : Nat
  pre : Option (Nat × Nat)
deriving DecidableEq, Repr

/-- Parses an optional prerelease suffix, requiring the whole remainder
to be consumed (embeds the tail of the distutils StrictVersion regular
expression). -/
def parsePre : List Char → Option (Option (Nat × Nat))
  | [] => some none
  | c :: r =>
    if c = 'a' ∨ c = 'b' then
      let d := takeDigits r
      if d.1 = [] ∨ d.2 ≠ [] then none
      else some (some ((if c = 'a' then 0 else 1), digitsVal d.1))
    else none

/-- Embeds distutils.version.StrictVersion parsing: digits, dot,
digits, optional dot-digits patch, optional a/b prerelease; anything
else raises ValueError in Python, modelled as none here. -/
def parseStrictVersion (s : String) : Option StrictVer :=
  let d1 := takeDigits s.data
  if d1.1 = [] then none else
  match d1.2 with
  | '.' :: r2 =>
    let d2 := takeDigits r2
    if d2.1 = [] then none else
    match d2.2 with
    | '.' :: r3 =>
      let d3 := takeDigits r3
      if d3.1 = [] then none else
      match parsePre d3.2 with
      | none => none
      | some pre => some ⟨digitsVal d1.1, digitsVal d2.1, digitsVal d3.1, pre⟩
    | rest =>
      match parsePre rest with
      | none => none
      | some pre => some ⟨digitsVal d1.1, digitsVal d2.1, 0, pre⟩
  | _ => none

/-- Embeds the distutils StrictVersion strict ordering: lexicographic
on the numeric triple; a release beats any prerelease of the same
triple; prereleases compare by series then number. -/
def svLT (x y : StrictVer) : Bool :=
  if x.major ≠ y.major then decide (x.major < y.major)
  else if x.minor ≠ y.minor then decide (x.minor < y.minor)
  else if x.patch ≠ y.patch then decide (x.patch < y.patch)
  else
    match x.pre, y.pre with
    | some _, none => true
    | none, _ => false
    | some p, some q => decide (p.1 < q.1 ∨ (p.1 = q.1 ∧ p.2 < q.2))

/-- Non-strict StrictVersion comparison. -/
def svLE (x y : StrictVer) : Bool := svLT x y || x == y

/-- Modelled from the spec: bloom.util.segment_version is not under
src/.  The spec describes the no-prior-tag baseline as the result of
splitting the new version into major/minor/patch, so this splits the
string on dots and returns the first three segments. -/
def segment_version (v : String) : String × String × String :=
  let parts := (splitOnChar '.' v.data).map (fun l => String.mk l)
  (parts.getD 0 "", parts.getD 1 "", parts.getD 2 "")

/-- Modelled from the spec: bloom.util.get_versions_from_upstream_tag
is not under src/.  The spec says the guard compares against the
version parsed from the most recently dated tag; the version is the
final path segment of the tag name, split into major/minor/patch. -/
def get_versions_from_upstream_tag (tag : String) : String × String × String :=
  segment_version (String.mk ((splitOnChar '/' tag.data).getLastD []))

/-- The dotted string rebuilt from the tag segments, as on source line
358 (joining gbp_major, gbp_minor, gbp_patch with dots). -/
def lastTagVersionString (tag : String) : String :=
  let t := get_versions_from_upstream_tag tag
  t.1 ++ "." ++ t.2.1 ++ "." ++ t.2.2

/-- One observable external side effect of a run, in program order. -/
inductive Event where
  | trackBranches (bs : List String)
  | chdir (d : String)
  | cloneRepo (url : String)
  | gitBranchMove (a b : String)
  | gitCheckout (b : String)
  | gitMv (a b : String)
  | rewriteConf
  | gitAdd (f : String)
  | gitCommit (msg : String)
  | vcsCheckout (vcs url ver : String)
  | findPackages
  | checkStackXml
  | exportRepo (ver path : String)
  | regressionWarning
  | collisionWarning
  | replaceWarning
  | gitTagDelete (tag : String)
  | gitPushDeleteTag (tag : String)
  | createUpstreamBranch
  | updateMaster
  | importOrig (path : String) (interactive merge : Bool)
  | pushAllForce
  | pushTags
  | rmtree (d : String)
deriving DecidableEq, Repr

/-- How a run ends: `finished r` is a normal return from the procedure
(r = none for Python None, r = some 1 for return 1), `sysExit` an
internal sys.exit call, `valueError` an uncaught ValueError raised by
StrictVersion parsing. -/
inductive Outcome where
  | finished (r : Option Nat)
  | sysExit (code : Nat)
  | valueError
deriving DecidableEq, Repr

/-- The parsed command-line arguments (argparse result). -/
structure Args where
  upstream_devel : Option String
  interactive : Bool
  merge : Bool
  replace : Bool
  not_catkin : Bool
  name : Option String
  tag : Option String

/-- Results of the external calls a run can make, fixed for the run:
bloom.conf contents, git command outputs, vcstools checkout and export
results, discovered package manifests, the most recently dated tag, and
the git-buildpackage capabilities.  Functions model calls whose result
depends on the argument (for example checkout of a given URL). -/
structure Env where
  upstream_repo : String
  upstream_type : String
  upstream_branch : String
  branchesOutput : String
  catkinConfExists : Bool
  checkoutBloomOk : Bool
  bloomConfExists : Bool
  vcsCheckoutOk : String → String → Bool
  packages : List (String × String)
  hasRospkg : Bool
  stackXmlExists : Bool
  stackName : String
  stackVersion : String
  exportOk : Bool
  last_tag : String
  hasReplace : Bool
  branchesOutput2 : String
  importOrigFails : Bool

/-- Resolved upstream metadata (source lines 293 to 306): package or
stack names, the common version, and which convention produced it. -/
structure Meta where
  names : List String
  version : String
  mtype : String
deriving DecidableEq, Repr

/-- Embeds convert_catkin_to_bloom (source lines 86 to 107): rename the
catkin branch to bloom, check it out, and migrate the config file when
present. -/
def convert_catkin_to_bloom (env : Env) : List Event :=
  [Event.gitBranchMove "catkin" "bloom", Event.gitCheckout "bloom"]
  ++ (if env.catkinConfExists then [Event.gitMv "catkin.conf" "bloom.conf"] else [])
  ++ (if env.bloomConfExists then
        [Event.rewriteConf, Event.gitAdd "bloom.conf",
         Event.gitCommit "rename catkin.conf to bloom.conf"]
      else [])

/-- Embeds check_for_bloom (source lines 117 to 140): substring count
of bloom in the git branch output, legacy catkin migration, then a
checkout of bloom and a check for bloom.conf; each failure is
not_a_bloom_release_repo, which is sys.exit(1). -/
def cfbConvertEvents (env : Env) : List Event :=
  if countSub env.branchesOutput "bloom" = 0 then convert_catkin_to_bloom env
  else []

def check_for_bloom (env : Env) : List Event × Except Outcome Unit :=
  if countSub env.branchesOutput "bloom" = 0 ∧ countSub env.branchesOutput "catkin" = 0 then
    ([], Except.error (Outcome.sysExit 1))
  else
    if env.checkoutBloomOk then
      (cfbConvertEvents env ++ [Event.gitCheckout "bloom"],
       if env.bloomConfExists then Except.ok ()
       else Except.error (Outcome.sysExit 1))
    else (cfbConvertEvents env, Except.error (Outcome.sysExit 1))

/-- Embeds the external catkin_pkg verify_equal_package_versions
contract used on source line 213: all discovered manifests must declare
the identical version; none models the RuntimeError it raises on a
mismatch. -/
def verify_equal_package_versions (pkgs : List (String × String)) : Option String :=
  match pkgs with
  | [] => none
  | (_, v) :: rest => if rest.all (fun p => p.2 == v) then some v else none

/-- Embeds get_upstream_meta (source lines 179 to 223): find package
manifests; if none, optionally fall back to stack.xml when rospkg is
available; mismatched package versions are fatal (sys.exit(1)). -/
def get_upstream_meta (env : Env) : List Event × Except Outcome Meta :=
  if env.packages = [] then
    if env.hasRospkg then
      ([Event.findPackages, Event.checkStackXml],
       if env.stackXmlExists then
         Except.ok ⟨[env.stackName], env.stackVersion, "stack.xml"⟩
       else Except.error (Outcome.sysExit 1))
    else ([Event.findPackages], Except.error (Outcome.sysExit 1))
  else
    ([Event.findPackages],
     match verify_equal_package_versions env.packages with
     | some v => Except.ok ⟨env.packages.map Prod.fst, v, "package.xml"⟩
     | none => Except.error (Outcome.sysExit 1))

/-- Embeds the upstream checkout section (source lines 247 to 290):
resolve the effective branch (devel override, then the configured
branch, with the literal placeholder mapped to empty), build the svn
trunk/branches URL when the upstream type is svn, attempt the checkout,
and return 1 on failure. -/
def checkoutPhase (env : Env) (args : Args) : List Event × Except Outcome Unit :=
  let ver0 :=
    match args.upstream_devel with
    | some v => v
    | none => env.upstream_branch
  let ver := if ver0 = "(No branch set)" then "" else ver0
  let checkout_url :=
    if env.upstream_type = "svn" then
      if ver = "" then env.upstream_repo ++ "/trunk"
      else env.upstream_repo ++ "/branches/" ++ ver
    else env.upstream_repo
  let checkout_ver := if env.upstream_type = "svn" then "" else ver
  ([Event.vcsCheckout env.upstream_type checkout_url checkout_ver],
   if env.vcsCheckoutOk checkout_url checkout_ver then Except.ok ()
   else Except.error (Outcome.finished (some 1)))

/-- Embeds the metadata section (source lines 292 to 306): with
not_catkin both the name and the tag flag must be present (else return
1, with no tree inspection); otherwise get_upstream_meta inspects the
tree. -/
def metaPhase (env : Env) (args : Args) : List Event × Except Outcome Meta :=
  if args.not_catkin then
    match args.name, args.tag with
    | some n, some t => ([], Except.ok ⟨[n], t, "not_catkin"⟩)
    | _, _ => ([], Except.error (Outcome.finished (some 1)))
  else get_upstream_meta env

/-- The shared final export step (source lines 343 to 345): export the
tree to the tarball path after any events already emitted, returning 1
on export failure. -/
def exportTail (env : Env) (ev : List Event) (export_version tarball_path : String) :
    List Event × Except Outcome String :=
  (ev ++ [Event.exportRepo export_version tarball_path],
   if env.exportOk then Except.ok tarball_path
   else Except.error (Outcome.finished (some 1)))

/-- Embeds the export section (source lines 322 to 345): for svn, first
try the tags/version URL, then tags/name-version, returning 1 if both
fail; then export the tree to the tarball path, returning 1 on export
failure.  Returns the tarball path. -/
def exportPhase (env : Env) (meta : Meta) (tmp_dir : String) :
    List Event × Except Outcome String :=
  let name := meta.names.headD ""
  let version := meta.version
  let tarball_path := tmp_dir ++ "/upstream-" ++ version
  if env.upstream_type = "svn" then
    let url1 := env.upstream_repo ++ "/tags/" ++ version
    let url2 := env.upstream_repo ++ "/tags/" ++ name ++ "-" ++ version
    if env.vcsCheckoutOk url1 "" then
      exportTail env [Event.vcsCheckout "svn" url1 ""] "" tarball_path
    else if env.vcsCheckoutOk url2 "" then
      exportTail env [Event.vcsCheckout "svn" url1 "", Event.vcsCheckout "svn" url2 ""]
        "" tarball_path
    else
      ([Event.vcsCheckout "svn" url1 "", Event.vcsCheckout "svn" url2 ""],
       Except.error (Outcome.finished (some 1)))
  else
    exportTail env [] version tarball_path

/-- The regression warning of source lines 360 to 367: emitted exactly
when the new version is strictly below the last tag version. -/
def regressionEvents (fv lv : StrictVer) : List Event :=
  if svLT fv lv then [Event.regressionWarning] else []

/-- Embeds the version guard (source lines 347 to 391).  With no prior
tag the baseline is the segmented new version and control falls
through.  Otherwise both versions go through StrictVersion (an
ill-formed string raises ValueError, uncaught); a strictly smaller new
version emits the regression warning; when new is less than or equal to
the tag version, the replace flag requires git-buildpackage support
(else return 1) and then deletes the tag locally and remotely, while
without the flag only the collision warning is emitted. -/
def versionGuard (env : Env) (args : Args) (version : String) :
    List Event × Except Outcome Unit :=
  if env.last_tag = "" then
    let _gbp := segment_version version
    ([], Except.ok ())
  else
    match parseStrictVersion version with
    | none => ([], Except.error Outcome.valueError)
    | some full_version_strict =>
      match parseStrictVersion (lastTagVersionString env.last_tag) with
      | none => ([], Except.error Outcome.valueError)
      | some last_tag_version_strict =>
        let ev1 := regressionEvents full_version_strict last_tag_version_strict
        if svLE full_version_strict last_tag_version_strict then
          if args.replace then
            if env.hasReplace then
              (ev1 ++ [Event.replaceWarning, Event.gitTagDelete env.last_tag,
                       Event.gitPushDeleteTag env.last_tag], Except.ok ())
            else (ev1, Except.error (Outcome.finished (some 1)))
          else (ev1 ++ [Event.collisionWarning], Except.ok ())
        else (ev1, Except.ok ())

/-- Source lines 393 to 398: the orphan upstream branch is created only
when the substring count of upstream in the git branch output is
zero. -/
def upstreamBranchEvents (env : Env) : List Event :=
  if countSub env.branchesOutput2 "upstream" = 0 then [Event.createUpstreamBranch]
  else []

/-- Embeds the tail of import_upstream (source lines 393 to 409):
create the orphan upstream branch when absent, update master, run
git-import-orig on the tarball (a truthy result is return 1 with no
pushes), then force-push all branches and push all tags. -/
def postGuard (env : Env) (args : Args) (tarball_path : String) :
    List Event × Outcome :=
  let ev2 := upstreamBranchEvents env ++ [Event.updateMaster,
    Event.importOrig (tarball_path ++ ".tar.gz") args.interactive args.merge]
  if env.importOrigFails then (ev2, Outcome.finished (some 1))
  else (ev2 ++ [Event.pushAllForce, Event.pushTags], Outcome.finished none)

/-- Events of the setup section of import_upstream (source lines 228
to 239): track branches, change into the scratch clone directory, clone
the release repository, track branches again. -/
def cloneEvents (cwd tmp_dir : String) : List Event :=
  [Event.trackBranches ["bloom", "upstream"],
   Event.chdir (tmp_dir ++ "/bloom_clone"),
   Event.cloneRepo ("file://" ++ cwd),
   Event.trackBranches ["bloom", "upstream"]]

/-- The run from the start of import_upstream (source line 227) up to
but not including the version guard: setup, bloom check, config parse,
upstream checkout, metadata resolution and export.  Returns the
resolved metadata and tarball path. -/
def preGuard (env : Env) (args : Args) (cwd tmp_dir : String) :
    List Event × Except Outcome (Meta × String) :=
  let ev0 : List Event := cloneEvents cwd tmp_dir
  match check_for_bloom env with
  | (ev1, Except.error o) => (ev0 ++ ev1, Except.error o)
  | (ev1, Except.ok _) =>
    match checkoutPhase env args with
    | (ev2, Except.error o) => (ev0 ++ ev1 ++ ev2, Except.error o)
    | (ev2, Except.ok _) =>
      match metaPhase env args with
      | (ev3, Except.error o) => (ev0 ++ ev1 ++ ev2 ++ ev3, Except.error o)
      | (ev3, Except.ok meta) =>
        match exportPhase env meta tmp_dir with
        | (ev4, Except.error o) => (ev0 ++ ev1 ++ ev2 ++ ev3 ++ ev4, Except.error o)
        | (ev4, Except.ok tp) =>
          (ev0 ++ ev1 ++ ev2 ++ ev3 ++ ev4, Except.ok (meta, tp))

/-- Embeds import_upstream (source lines 226 to 409) as the composition
of the phases above. -/
def import_upstream (env : Env) (args : Args) (cwd tmp_dir : String) :
    List Event × Outcome :=
  match preGuard env args cwd tmp_dir with
  | (ev, Except.error o) => (ev, o)
  | (ev, Except.ok (meta, tp)) =>
    match versionGuard env args meta.version with
    | (ev2, Except.error o) => (ev ++ ev2, o)
    | (ev2, Except.ok _) =>
      let r := postGuard env args tp
      (ev ++ ev2 ++ r.1, r.2)

/-- External facts seen by main (source lines 493 to 532): whether the
working directory is inside a git repository, the branch checked out at
start, and whether that branch still exists when the run ends. -/
structure MainEnv where
  rootOk : Bool
  current_branch : Option String
  branchExistsAtEnd : String → Bool

/-- Embeds main (source lines 493 to 532): the git-root and
current-branch precondition checks, then import_upstream inside a
try/finally whose finally block restores the working directory, removes
the temporary directory, and checks the original branch out again when
it is nonempty and still exists.  The finally block runs on every exit
of the body, normal or exceptional, so its events follow the body trace
on every path. -/
def main (menv : MainEnv) (env : Env) (args : Args) (cwd tmp_dir : String) :
    List Event × Outcome :=
  if ¬menv.rootOk then ([], Outcome.finished (some 1))
  else if menv.current_branch = some "upstream" then ([], Outcome.finished (some 1))
  else
    let r := import_upstream env args cwd tmp_dir
    let cleanup : List Event :=
      [Event.chdir cwd, Event.rmtree tmp_dir] ++
      (match menv.current_branch with
       | some b => if b ≠ "" ∧ menv.branchExistsAtEnd b then [Event.gitCheckout b] else []
       | none => [])
    (r.1 ++ cleanup, r.2)

/-- Follows the description in the spec of what an exact-name branch
presence test would be: the git branch output is one branch per line,
the current one marked with a star.  Used only to state that substring
counting differs from exact-name matching. -/
def exactBranchNames (output : String) : List String :=
  (splitOnChar '\n' output.data).map
    (fun l => String.mk (l.filter (fun ch => ch != '*' && ch != ' ')))

/-- Numeric classification of events, used to show which phases can
emit which events. -/
def eKind : Event → Nat
  | .trackBranches _ => 0
  | .chdir _ => 1
  | .cloneRepo _ => 2
  | .gitBranchMove _ _ => 3
  | .gitCheckout _ => 4
  | .gitMv _ _ => 5
  | .rewriteConf => 6
  | .gitAdd _ => 7
  | .gitCommit _ => 8
  | .vcsCheckout _ _ _ => 9
  | .findPackages => 10
  | .checkStackXml => 11
  | .exportRepo _ _ => 12
  | .regressionWarning => 13
  | .collisionWarning => 14
  | .replaceWarning => 15
  | .gitTagDelete _ => 16
  | .gitPushDeleteTag _ => 17
  | .createUpstreamBranch => 18
  | .updateMaster => 19
  | .importOrig _ _ _ => 20
  | .pushAllForce => 21
  | .pushTags => 22
  | .rmtree _ => 23

theorem memIteList {α : Type} {c : Prop} [Decidable c] {l : List α} {e : α}
    (h : e ∈ (if c then l else [])) : e ∈ l := by
  split at h
  · exact h
  · cases h

theorem convert_kinds (env : Env) :
    ∀ e ∈ convert_catkin_to_bloom env, 3 ≤ eKind e ∧ eKind e ≤ 8 := by
  intro e he
  unfold convert_catkin_to_bloom at he
  rw [List.mem_append, List.mem_append] at he
  rcases he with (he | he) | he
  · fin_cases he <;> simp [eKind]
  · have h2 := memIteList he; fin_cases h2 <;> simp [eKind]
  · have h2 := memIteList he; fin_cases h2 <;> simp [eKind]

theorem cfbConvert_kinds (env : Env) :
    ∀ e ∈ cfbConvertEvents env, 3 ≤ eKind e ∧ eKind e ≤ 8 := by
  intro e he
  unfold cfbConvertEvents at he
  split at he
  · exact convert_kinds env e he
  · cases he

theorem cfb_kinds (env : Env) :
    ∀ e ∈ (check_for_bloom env).1, 3 ≤ eKind e ∧ eKind e ≤ 8 := by
  intro e he
  unfold check_for_bloom at he
  split at he
  · cases he
  · split at he
    · rw [List.mem_append] at he
      rcases he with he | he
      · exact cfbConvert_kinds env e he
      · fin_cases he <;> simp [eKind]
    · exact cfbConvert_kinds env e he

theorem checkoutPhase_kinds (env : Env) (args : Args) :
    ∀ e ∈ (checkoutPhase env args).1, eKind e = 9 := by
  intro e he
  unfold checkoutPhase at he
  fin_cases he <;> simp [eKind]

theorem metaPhase_kinds (env : Env) (args : Args) :
    ∀ e ∈ (metaPhase env args).1, 10 ≤ eKind e ∧ eKind e ≤ 11 := by
  intro e he
  unfold metaPhase at he
  split at he
  · split at he <;> cases he
  · unfold get_upstream_meta at he
    split at he
    · split at he
      · fin_cases he <;> simp [eKind]
      · fin_cases he <;> simp [eKind]
    · fin_cases he <;> simp [eKind]

theorem exportTail_kinds (env : Env) (ev : List Event) (v p : String)
    (h : ∀ e ∈ ev, 9 ≤ eKind e ∧ eKind e ≤ 12) :
    ∀ e ∈ (exportTail env ev v p).1, 9 ≤ eKind e ∧ eKind e ≤ 12 := by
  intro e he
  unfold exportTail at he
  rw [List.mem_append] at he
  rcases he with he | he
  · exact h e he
  · fin_cases he <;> simp [eKind]

theorem exportPhase_kinds (env : Env) (meta : Meta) (tmp_dir : String) :
    ∀ e ∈ (exportPhase env meta tmp_dir).1, 9 ≤ eKind e ∧ eKind e ≤ 12 := by
  intro e he
  unfold exportPhase at he
  dsimp only at he
  split at he
  · split at he
    · refine exportTail_kinds env _ _ _ ?_ e he
      intro x hx; fin_cases hx <;> simp [eKind]
    · split at he
      · refine exportTail_kinds env _ _ _ ?_ e he
        intro x hx; fin_cases hx <;> simp [eKind]
      · fin_cases he <;> simp [eKind]
  · refine exportTail_kinds env _ _ _ ?_ e he
    intro x hx; cases hx

theorem cloneEvents_kinds (cwd tmp_dir : String) :
    ∀ e ∈ cloneEvents cwd tmp_dir, eKind e ≤ 2 := by
  intro e he
  unfold cloneEvents at he
  fin_cases he <;> simp [eKind]

theorem preGuard_kinds (env : Env) (args : Args) (cwd tmp_dir : String) :
    ∀ e ∈ (preGuard env args cwd tmp_dir).1, eKind e ≤ 12 := by
  intro e he
  unfold preGuard at he
  have hk0 : ∀ x ∈ cloneEvents cwd tmp_dir, eKind x ≤ 12 := by
    intro x hx; have := cloneEvents_kinds cwd tmp_dir x hx; omega
  rcases hc : check_for_bloom env with ⟨ev1, r1⟩
  rw [hc] at he
  have hk1 : ∀ x ∈ ev1, eKind x ≤ 12 := by
    intro x hx
    have := cfb_kinds env x (by rw [hc]; exact hx)
    omega
  cases r1 with
  | error o =>
    dsimp only at he
    simp only [List.mem_append] at he
    rcases he with he | he
    · exact hk0 e he
    · exact hk1 e he
  | ok u =>
    dsimp only at he
    rcases hco : checkoutPhase env args with ⟨ev2, r2⟩
    rw [hco] at he
    have hk2 : ∀ x ∈ ev2, eKind x ≤ 12 := by
      intro x hx
      have := checkoutPhase_kinds env args x (by rw [hco]; exact hx)
      omega
    cases r2 with
    | error o =>
      dsimp only at he
      simp only [List.mem_append] at he
      rcases he with (he | he) | he
      · exact hk0 e he
      · exact hk1 e he
      · exact hk2 e he
    | ok u2 =>
      dsimp only at he
      rcases hm : metaPhase env args with ⟨ev3, r3⟩
      rw [hm] at he
      have hk3 : ∀ x ∈ ev3, eKind x ≤ 12 := by
        intro x hx
        have := metaPhase_kinds env args x (by rw [hm]; exact hx)
        omega
      cases r3 with
      | error o =>
        dsimp only at he
        simp only [List.mem_append] at he
        rcases he with ((he | he) | he) | he
        · exact hk0 e he
        · exact hk1 e he
        · exact hk2 e he
        · exact hk3 e he
      | ok meta =>
        dsimp only at he
        rcases hx4 : exportPhase env meta tmp_dir with ⟨ev4, r4⟩
        rw [hx4] at he
        have hk4 : ∀ x ∈ ev4, eKind x ≤ 12 := by
          intro x hx
          have := exportPhase_kinds env meta tmp_dir x (by rw [hx4]; exact hx)
          omega
        cases r4 with
        | error o =>
          dsimp only at he
          simp only [List.mem_append] at he
          rcases he with (((he | he) | he) | he) | he
          · exact hk0 e he
          · exact hk1 e he
          · exact hk2 e he
          · exact hk3 e he
          · exact hk4 e he
        | ok tp =>
          dsimp only at he
          simp only [List.mem_append] at he
          rcases he with (((he | he) | he) | he) | he
          · exact hk0 e he
          · exact hk1 e he
          · exact hk2 e he
          · exact hk3 e he
          · exact hk4 e he

theorem regressionEvents_kinds (fv lv : StrictVer) :
    ∀ e ∈ regressionEvents fv lv, 13 ≤ eKind e ∧ eKind e ≤ 17 := by
  intro e he
  unfold regressionEvents at he
  have h2 := memIteList he
  fin_cases h2 <;> simp [eKind]

theorem versionGuard_kinds (env : Env) (args : Args) (v : String) :
    ∀ e ∈ (versionGuard env args v).1, 13 ≤ eKind e ∧ eKind e ≤ 17 := by
  intro e he
  unfold versionGuard at he
  dsimp only at he
  split at he
  · cases he
  · rcases hp : parseStrictVersion v with _ | fv
    · rw [hp] at he; dsimp only at he; cases he
    · rw [hp] at he; dsimp only at he
      rcases hq : parseStrictVersion (lastTagVersionString env.last_tag) with _ | lv
      · rw [hq] at he; dsimp only at he; cases he
      · rw [hq] at he; dsimp only at he
        have hr := regressionEvents_kinds fv lv
        split at he
        · split at he
          · split at he
            · rw [List.mem_append] at he
              rcases he with he | he
              · exact hr e he
              · fin_cases he <;> simp [eKind]
            · exact hr e he
          · rw [List.mem_append] at he
            rcases he with he | he
            · exact hr e he
            · fin_cases he <;> simp [eKind]
        · exact hr e he

theorem upstreamBranchEvents_kinds (env : Env) :
    ∀ e ∈ upstreamBranchEvents env, 18 ≤ eKind e ∧ eKind e ≤ 22 := by
  intro e he
  unfold upstreamBranchEvents at he
  have h2 := memIteList he
  fin_cases h2 <;> simp [eKind]

theorem postGuard_kinds (env : Env) (args : Args) (tp : String) :
    ∀ e ∈ (postGuard env args tp).1, 18 ≤ eKind e ∧ eKind e ≤ 22 := by
  intro e he
  unfold postGuard at he
  dsimp only at he
  split at he
  · rw [List.mem_append] at he
    rcases he with he | he
    · exact upstreamBranchEvents_kinds env e he
    · fin_cases he <;> simp [eKind]
  · rw [List.mem_append, List.mem_append] at he
    rcases he with (he | he) | he
    · exact upstreamBranchEvents_kinds env e he
    · fin_cases he <;> simp [eKind]
    · fin_cases he <;> simp [eKind]


theorem svLT_irrefl (v : StrictVer) : svLT v v = false := by
  rcases v with ⟨a, b, c, pre⟩
  cases pre <;> simp [svLT]

theorem svLE_refl (v : StrictVer) : svLE v v = true := by
  simp [svLE]

theorem verify_eq_some (pkgs : List (String × String)) (v : String)
    (h : verify_equal_package_versions pkgs = some v) : ∀ p ∈ pkgs, p.2 = v := by
  rcases pkgs with _ | ⟨⟨n, v0⟩, rest⟩
  · cases h
  · unfold verify_equal_package_versions at h
    dsimp only at h
    by_cases hall : rest.all (fun p => p.2 == v0) = true
    · rw [if_pos hall] at h
      injection h with h
      subst h
      intro p hp
      rcases List.mem_cons.mp hp with rfl | hp
      · rfl
      · exact eq_of_beq (List.all_eq_true.mp hall p hp)
    · rw [if_neg hall] at h
      cases h

theorem postGuard_importOrig_mem (env : Env) (args : Args) (tp : String) :
    Event.importOrig (tp ++ ".tar.gz") args.interactive args.merge ∈
      (postGuard env args tp).1 := by
  unfold postGuard
  dsimp only
  split <;> simp

theorem import_eq_pre_err (env : Env) (args : Args) (cwd tmp_dir : String)
    (ev : List Event) (o : Outcome)
    (h : preGuard env args cwd tmp_dir = (ev, Except.error o)) :
    import_upstream env args cwd tmp_dir = (ev, o) := by
  unfold import_upstream
  rw [h]

theorem import_eq_guard_err (env : Env) (args : Args) (cwd tmp_dir : String)
    (ev ev2 : List Event) (meta : Meta) (tp : String) (o : Outcome)
    (h1 : preGuard env args cwd tmp_dir = (ev, Except.ok (meta, tp)))
    (h2 : versionGuard env args meta.version = (ev2, Except.error o)) :
    import_upstream env args cwd tmp_dir = (ev ++ ev2, o) := by
  unfold import_upstream
  rw [h1]
  dsimp only
  rw [h2]

theorem import_eq_guard_ok (env : Env) (args : Args) (cwd tmp_dir : String)
    (ev ev2 : List Event) (meta : Meta) (tp : String)
    (h1 : preGuard env args cwd tmp_dir = (ev, Except.ok (meta, tp)))
    (h2 : versionGuard env args meta.version = (ev2, Except.ok ())) :
    import_upstream env args cwd tmp_dir =
      (ev ++ ev2 ++ (postGuard env args tp).1, (postGuard env args tp).2) := by
  unfold import_upstream
  rw [h1]
  dsimp only
  rw [h2]

theorem versionGuard_no_tag (env : Env) (args : Args) (version : String)
    (h : env.last_tag = "") :
    versionGuard env args version = ([], Except.ok ()) := by
  unfold versionGuard
  rw [if_pos h]

theorem versionGuard_gt (env : Env) (args : Args) (version : String)
    (fv lv : StrictVer)
    (h1 : env.last_tag ≠ "")
    (hv : parseStrictVersion version = some fv)
    (hl : parseStrictVersion (lastTagVersionString env.last_tag) = some lv)
    (hle : svLE fv lv = false) :
    versionGuard env args version = (regressionEvents fv lv, Except.ok ()) := by
  unfold versionGuard
  rw [if_neg h1, hv, hl]
  dsimp only
  rw [hle]
  simp

theorem versionGuard_le_noreplace (env : Env) (args : Args) (version : String)
    (fv lv : StrictVer)
    (h1 : env.last_tag ≠ "")
    (hv : parseStrictVersion version = some fv)
    (hl : parseStrictVersion (lastTagVersionString env.last_tag) = some lv)
    (hle : svLE fv lv = true) (hr : args.replace = false) :
    versionGuard env args version =
      (regressionEvents fv lv ++ [Event.collisionWarning], Except.ok ()) := by
  unfold versionGuard
  rw [if_neg h1, hv, hl]
  dsimp only
  rw [hle, hr]
  simp

theorem versionGuard_le_replace_ok (env : Env) (args : Args) (version : String)
    (fv lv : StrictVer)
    (h1 : env.last_tag ≠ "")
    (hv : parseStrictVersion version = some fv)
    (hl : parseStrictVersion (lastTagVersionString env.last_tag) = some lv)
    (hle : svLE fv lv = true) (hr : args.replace = true) (hh : env.hasReplace = true) :
    versionGuard env args version =
      (regressionEvents fv lv ++ [Event.replaceWarning, Event.gitTagDelete env.last_tag,
        Event.gitPushDeleteTag env.last_tag], Except.ok ()) := by
  unfold versionGuard
  rw [if_neg h1, hv, hl]
  dsimp only
  rw [hle, hr, hh]
  simp

theorem versionGuard_le_replace_unsupported (env : Env) (args : Args) (version : String)
    (fv lv : StrictVer)
    (h1 : env.last_tag ≠ "")
    (hv : parseStrictVersion version = some fv)
    (hl : parseStrictVersion (lastTagVersionString env.last_tag) = some lv)
    (hle : svLE fv lv = true) (hr : args.replace = true) (hh : env.hasReplace = false) :
    versionGuard env args version =
      (regressionEvents fv lv, Except.error (Outcome.finished (some 1))) := by
  unfold versionGuard
  rw [if_neg h1, hv, hl]
  dsimp only
  rw [hle, hr, hh]
  simp

theorem versionGuard_parse_fail_version (env : Env) (args : Args) (version : String)
    (h1 : env.last_tag ≠ "")
    (hv : parseStrictVersion version = none) :
    versionGuard env args version = ([], Except.error Outcome.valueError) := by
  unfold versionGuard
  rw [if_neg h1, hv]

theorem versionGuard_parse_fail_tag (env : Env) (args : Args) (version : String)
    (fv : StrictVer)
    (h1 : env.last_tag ≠ "")
    (hv : parseStrictVersion version = some fv)
    (hl : parseStrictVersion (lastTagVersionString env.last_tag) = none) :
    versionGuard env args version = ([], Except.error Outcome.valueError) := by
  unfold versionGuard
  rw [if_neg h1, hv]
  dsimp only
  rw [hl]


theorem preGuard_cfb_err (env : Env) (args : Args) (cwd tmp_dir : String)
    (ev1 : List Event) (o : Outcome)
    (h : check_for_bloom env = (ev1, Except.error o)) :
    preGuard env args cwd tmp_dir = (cloneEvents cwd tmp_dir ++ ev1, Except.error o) := by
  unfold preGuard
  rw [h]

theorem preGuard_checkout_err (env : Env) (args : Args) (cwd tmp_dir : String)
    (ev1 ev2 : List Event) (o : Outcome)
    (h1 : check_for_bloom env = (ev1, Except.ok ()))
    (h2 : checkoutPhase env args = (ev2, Except.error o)) :
    preGuard env args cwd tmp_dir =
      (cloneEvents cwd tmp_dir ++ ev1 ++ ev2, Except.error o) := by
  unfold preGuard
  rw [h1]
  dsimp only
  rw [h2]

theorem preGuard_meta_err (env : Env) (args : Args) (cwd tmp_dir : String)
    (ev1 ev2 ev3 : List Event) (o : Outcome)
    (h1 : check_for_bloom env = (ev1, Except.ok ()))
    (h2 : checkoutPhase env args = (ev2, Except.ok ()))
    (h3 : metaPhase env args = (ev3, Except.error o)) :
    preGuard env args cwd tmp_dir =
      (cloneEvents cwd tmp_dir ++ ev1 ++ ev2 ++ ev3, Except.error o) := by
  unfold preGuard
  rw [h1]
  dsimp only
  rw [h2]
  dsimp only
  rw [h3]

theorem preGuard_export_err (env : Env) (args : Args) (cwd tmp_dir : String)
    (ev1 ev2 ev3 ev4 : List Event) (meta : Meta) (o : Outcome)
    (h1 : check_for_bloom env = (ev1, Except.ok ()))
    (h2 : checkoutPhase env args = (ev2, Except.ok ()))
    (h3 : metaPhase env args = (ev3, Except.ok meta))
    (h4 : exportPhase env meta tmp_dir = (ev4, Except.error o)) :
    preGuard env args cwd tmp_dir =
      (cloneEvents cwd tmp_dir ++ ev1 ++ ev2 ++ ev3 ++ ev4, Except.error o) := by
  unfold preGuard
  rw [h1]
  dsimp only
  rw [h2]
  dsimp only
  rw [h3]
  dsimp only
  rw [h4]

theorem preGuard_all_ok (env : Env) (args : Args) (cwd tmp_dir : String)
    (ev1 ev2 ev3 ev4 : List Event) (meta : Meta) (tp : String)
    (h1 : check_for_bloom env = (ev1, Except.ok ()))
    (h2 : checkoutPhase env args = (ev2, Except.ok ()))
    (h3 : metaPhase env args = (ev3, Except.ok meta))
    (h4 : exportPhase env meta tmp_dir = (ev4, Except.ok tp)) :
    preGuard env args cwd tmp_dir =
      (cloneEvents cwd tmp_dir ++ ev1 ++ ev2 ++ ev3 ++ ev4, Except.ok (meta, tp)) := by
  unfold preGuard
  rw [h1]
  dsimp only
  rw [h2]
  dsimp only
  rw [h3]
  dsimp only
  rw [h4]

theorem preGuard_trace_sub (env : Env) (args : Args) (cwd tmp_dir : String) :
    ∀ e ∈ (preGuard env args cwd tmp_dir).1, e ∈ (import_upstream env args cwd tmp_dir).1 := by
  intro e he
  rcases hp : preGuard env args cwd tmp_dir with ⟨ev, r⟩
  rw [hp] at he
  cases r with
  | error o =>
    rw [import_eq_pre_err env args cwd tmp_dir ev o hp]
    exact he
  | ok mt =>
    rcases mt with ⟨meta, tp⟩
    unfold import_upstream
    rw [hp]
    dsimp only
    rcases hv : versionGuard env args meta.version with ⟨ev2, r2⟩
    cases r2 with
    | error o =>
      dsimp only
      simp [he]
    | ok u =>
      dsimp only
      simp [he]


theorem checkoutPhase_snd (env : Env) (args : Args) :
    (checkoutPhase env args).2 = Except.ok () ∨
    (checkoutPhase env args).2 = Except.error (Outcome.finished (some 1)) := by
  unfold checkoutPhase
  dsimp only
  exact ite_eq_or_eq _ _ _

theorem checkoutPhase_fst (env : Env) (args : Args) :
    ∃ u w, (checkoutPhase env args).1 = [Event.vcsCheckout env.upstream_type u w] := by
  unfold checkoutPhase
  exact ⟨_, _, rfl⟩

theorem postGuard_fail (env : Env) (args : Args) (tp : String)
    (h : env.importOrigFails = true) :
    postGuard env args tp =
      (upstreamBranchEvents env ++ [Event.updateMaster,
        Event.importOrig (tp ++ ".tar.gz") args.interactive args.merge],
       Outcome.finished (some 1)) := by
  unfold postGuard
  dsimp only
  rw [if_pos h]

theorem postGuard_push (env : Env) (args : Args) (tp : String)
    (h : env.importOrigFails = false) :
    postGuard env args tp =
      (upstreamBranchEvents env ++ [Event.updateMaster,
        Event.importOrig (tp ++ ".tar.gz") args.interactive args.merge] ++
        [Event.pushAllForce, Event.pushTags],
       Outcome.finished none) := by
  unfold postGuard
  dsimp only
  rw [if_neg (by simp [h])]

theorem checkout_events_in_preGuard (env : Env) (args : Args) (cwd tmp_dir : String)
    (ev1 : List Event)
    (hcfb : check_for_bloom env = (ev1, Except.ok ())) :
    ∀ e ∈ (checkoutPhase env args).1, e ∈ (preGuard env args cwd tmp_dir).1 := by
  intro e he
  unfold preGuard
  rw [hcfb]
  dsimp only
  rcases hco : checkoutPhase env args with ⟨ev2, r2⟩
  rw [hco] at he
  cases r2 with
  | error o => simp [he]
  | ok u =>
    dsimp only
    rcases hm : metaPhase env args with ⟨ev3, r3⟩
    cases r3 with
    | error o => simp [he]
    | ok meta =>
      dsimp only
      rcases hx : exportPhase env meta tmp_dir with ⟨ev4, r4⟩
      cases r4 with
      | error o => simp [he]
      | ok tp => simp [he]

theorem meta_events_in_preGuard (env : Env) (args : Args) (cwd tmp_dir : String)
    (ev1 ev2 : List Event)
    (hcfb : check_for_bloom env = (ev1, Except.ok ()))
    (hco : checkoutPhase env args = (ev2, Except.ok ())) :
    ∀ e ∈ (metaPhase env args).1, e ∈ (preGuard env args cwd tmp_dir).1 := by
  intro e he
  unfold preGuard
  rw [hcfb]
  dsimp only
  rw [hco]
  dsimp only
  rcases hm : metaPhase env args with ⟨ev3, r3⟩
  rw [hm] at he
  cases r3 with
  | error o => simp [he]
  | ok meta =>
    dsimp only
    rcases hx : exportPhase env meta tmp_dir with ⟨ev4, r4⟩
    cases r4 with
    | error o => simp [he]
    | ok tp => simp [he]

theorem export_events_in_preGuard (env : Env) (args : Args) (cwd tmp_dir : String)
    (ev1 ev2 ev3 : List Event) (meta : Meta)
    (hcfb : check_for_bloom env = (ev1, Except.ok ()))
    (hco : checkoutPhase env args = (ev2, Except.ok ()))
    (hm : metaPhase env args = (ev3, Except.ok meta)) :
    ∀ e ∈ (exportPhase env meta tmp_dir).1, e ∈ (preGuard env args cwd tmp_dir).1 := by
  intro e he
  unfold preGuard
  rw [hcfb]
  dsimp only
  rw [hco]
  dsimp only
  rw [hm]
  dsimp only
  rcases hx : exportPhase env meta tmp_dir with ⟨ev4, r4⟩
  rw [hx] at he
  cases r4 with
  | error o => simp [he]
  | ok tp => simp [he]


/-- C1: in a run that reaches the version guard with a prior tag whose
version equals the new version and with the replace flag set: when
git-buildpackage supports replacement the conflicting tag is deleted
locally and remotely and the import step is reached; when it does not,
the run returns 1 and no tag deletion happens anywhere in the run. -/
theorem C1_replace_guard (env : Env) (args : Args) (cwd tmp_dir : String)
    (ev : List Event) (meta : Meta) (tp : String) (v : StrictVer)
    (hpre : preGuard env args cwd tmp_dir = (ev, Except.ok (meta, tp)))
    (hlast : env.last_tag ≠ "")
    (hrep : args.replace = true)
    (hv : parseStrictVersion meta.version = some v)
    (hl : parseStrictVersion (lastTagVersionString env.last_tag) = some v) :
    (env.hasReplace = true →
      Event.gitTagDelete env.last_tag ∈ (import_upstream env args cwd tmp_dir).1 ∧
      Event.gitPushDeleteTag env.last_tag ∈ (import_upstream env args cwd tmp_dir).1 ∧
      Event.importOrig (tp ++ ".tar.gz") args.interactive args.merge ∈
        (import_upstream env args cwd tmp_dir).1) ∧
    (env.hasReplace = false →
      (import_upstream env args cwd tmp_dir).2 = Outcome.finished (some 1) ∧
      ∀ t, Event.gitTagDelete t ∉ (import_upstream env args cwd tmp_dir).1) := by
  have hle : svLE v v = true := svLE_refl v
  have hregr : regressionEvents v v = [] := by
    unfold regressionEvents
    rw [svLT_irrefl]
    simp
  constructor
  · intro hh
    have hg := versionGuard_le_replace_ok env args meta.version v v hlast hv hl hle hrep hh
    rw [import_eq_guard_ok env args cwd tmp_dir ev _ meta tp hpre hg]
    dsimp only
    refine ⟨?_, ?_, ?_⟩
    · simp [hregr]
    · simp [hregr]
    · exact List.mem_append_right _ (postGuard_importOrig_mem env args tp)
  · intro hh
    have hg := versionGuard_le_replace_unsupported env args meta.version v v hlast hv hl
      hle hrep hh
    have him := import_eq_guard_err env args cwd tmp_dir ev _ meta tp _ hpre hg
    refine ⟨by rw [him], ?_⟩
    intro t hmem
    rw [him] at hmem
    dsimp only at hmem
    rw [hregr, List.append_nil] at hmem
    have hk := preGuard_kinds env args cwd tmp_dir (Event.gitTagDelete t)
      (by rw [hpre]; exact hmem)
    simp [eKind] at hk

/-- C3: in a run that reaches the version guard with no prior upstream
tag, the guard emits nothing and falls through for every version
string, and the import step is reached. -/
theorem C3_no_prior_tag (env : Env) (args : Args) (cwd tmp_dir : String)
    (ev : List Event) (meta : Meta) (tp : String)
    (hpre : preGuard env args cwd tmp_dir = (ev, Except.ok (meta, tp)))
    (hlast : env.last_tag = "") :
    (∀ v, versionGuard env args v = ([], Except.ok ())) ∧
    Event.importOrig (tp ++ ".tar.gz") args.interactive args.merge ∈
      (import_upstream env args cwd tmp_dir).1 := by
  refine ⟨fun v => versionGuard_no_tag env args v hlast, ?_⟩
  rw [import_eq_guard_ok env args cwd tmp_dir ev [] meta tp hpre
    (versionGuard_no_tag env args meta.version hlast)]
  dsimp only
  exact List.mem_append_right _ (postGuard_importOrig_mem env args tp)

/-- C5: in a run that reaches the version guard with a prior tag, both
the new version and the reconstructed tag version go through strict
version parsing, and the run ends with an uncaught parsing error when
either fails to parse. -/
theorem C5_strict_parse (env : Env) (args : Args) (cwd tmp_dir : String)
    (ev : List Event) (meta : Meta) (tp : String)
    (hpre : preGuard env args cwd tmp_dir = (ev, Except.ok (meta, tp)))
    (hlast : env.last_tag ≠ "")
    (hbad : parseStrictVersion meta.version = none ∨
      parseStrictVersion (lastTagVersionString env.last_tag) = none) :
    (import_upstream env args cwd tmp_dir).2 = Outcome.valueError := by
  rcases hbad with hv | hl
  · rw [import_eq_guard_err env args cwd tmp_dir ev [] meta tp Outcome.valueError hpre
      (versionGuard_parse_fail_version env args meta.version hlast hv)]
  · rcases hp : parseStrictVersion meta.version with _ | fv
    · rw [import_eq_guard_err env args cwd tmp_dir ev [] meta tp Outcome.valueError hpre
        (versionGuard_parse_fail_version env args meta.version hlast hp)]
    · rw [import_eq_guard_err env args cwd tmp_dir ev [] meta tp Outcome.valueError hpre
        (versionGuard_parse_fail_tag env args meta.version fv hlast hp hl)]

/-- C8: in a run that passes the version guard, a truthy git-import-orig
result makes the run return 1 with no branch or tag push anywhere in the
trace, and a falsy result leads to the force push of all branches and
the push of all tags, with the run finishing normally. -/
theorem C8_import_orig (env : Env) (args : Args) (cwd tmp_dir : String)
    (ev ev2 : List Event) (meta : Meta) (tp : String)
    (hpre : preGuard env args cwd tmp_dir = (ev, Except.ok (meta, tp)))
    (hguard : versionGuard env args meta.version = (ev2, Except.ok ())) :
    (env.importOrigFails = true →
      (import_upstream env args cwd tmp_dir).2 = Outcome.finished (some 1) ∧
      Event.pushAllForce ∉ (import_upstream env args cwd tmp_dir).1 ∧
      Event.pushTags ∉ (import_upstream env args cwd tmp_dir).1) ∧
    (env.importOrigFails = false →
      Event.pushAllForce ∈ (import_upstream env args cwd tmp_dir).1 ∧
      Event.pushTags ∈ (import_upstream env args cwd tmp_dir).1 ∧
      (import_upstream env args cwd tmp_dir).2 = Outcome.finished none) := by
  have him := import_eq_guard_ok env args cwd tmp_dir ev ev2 meta tp hpre hguard
  constructor
  · intro hh
    have hpg := postGuard_fail env args tp hh
    rw [him, hpg]
    dsimp only
    refine ⟨rfl, ?_, ?_⟩ <;>
    · intro hmem
      rw [List.mem_append, List.mem_append] at hmem
      rcases hmem with (hmem | hmem) | hmem
      · have hk := preGuard_kinds env args cwd tmp_dir _ (by rw [hpre]; exact hmem)
        simp [eKind] at hk
      · have hk := versionGuard_kinds env args meta.version _ (by rw [hguard]; exact hmem)
        simp [eKind] at hk
      · rw [List.mem_append] at hmem
        rcases hmem with hmem | hmem
        · have h2 := memIteList (by
            have : upstreamBranchEvents env =
                if countSub env.branchesOutput2 "upstream" = 0 then
                  [Event.createUpstreamBranch] else [] := rfl
            rw [this] at hmem
            exact hmem)
          simp at h2
        · simp at hmem
  · intro hh
    have hpg := postGuard_push env args tp hh
    rw [him, hpg]
    dsimp only
    refine ⟨?_, ?_, rfl⟩ <;> simp


/-- A release repository environment in which every external call
succeeds: a bloom branch exists, the upstream checkout and export work,
one package manifest with version 1.0.0 is found, the most recently
dated tag is 1.0.0, and git-buildpackage supports replacement. -/
def env1 : Env := {
  upstream_repo := "http://example.com/repo"
  upstream_type := "git"
  upstream_branch := ""
  branchesOutput := "* bloom\n  master\n  upstream"
  catkinConfExists := false
  checkoutBloomOk := true
  bloomConfExists := true
  vcsCheckoutOk := fun _ _ => true
  packages := [("pkg", "1.0.0")]
  hasRospkg := false
  stackXmlExists := false
  stackName := ""
  stackVersion := ""
  exportOk := true
  last_tag := "1.0.0"
  hasReplace := true
  branchesOutput2 := "* upstream"
  importOrigFails := false }

/-- Arguments with only the replace flag set. -/
def args1 : Args := {
  upstream_devel := none
  interactive := false
  merge := false
  replace := true
  not_catkin := false
  name := none
  tag := none }

/-- The metadata resolved from env1. -/
def meta1 : Meta := ⟨["pkg"], "1.0.0", "package.xml"⟩

/-- The events of the run in env1 before the version guard. -/
def preEv1 : List Event :=
  [Event.trackBranches ["bloom", "upstream"],
   Event.chdir "/tmp/bloom_clone",
   Event.cloneRepo "file:///repo",
   Event.trackBranches ["bloom", "upstream"],
   Event.gitCheckout "bloom",
   Event.vcsCheckout "git" "http://example.com/repo" "",
   Event.findPackages,
   Event.exportRepo "1.0.0" "/tmp/upstream-1.0.0"]

theorem C1_replace_guard_witness :
    env1.last_tag ≠ "" ∧ args1.replace = true ∧
    Event.gitTagDelete "1.0.0" ∈ (import_upstream env1 args1 "/repo" "/tmp").1 ∧
    Event.gitPushDeleteTag "1.0.0" ∈ (import_upstream env1 args1 "/repo" "/tmp").1 := by
  have h := C1_replace_guard env1 args1 "/repo" "/tmp" preEv1 meta1 "/tmp/upstream-1.0.0"
    ⟨1, 0, 0, none⟩ (by rfl) (by decide) rfl rfl rfl
  have h2 := h.1 rfl
  exact ⟨by decide, rfl, h2.1, h2.2.1⟩

/-- The same repository but with the new upstream version 0.9.0,
strictly below the last tag version 1.0.0. -/
def env2 : Env := { env1 with packages := [("pkg", "0.9.0")] }

/-- The claim says a run with a strictly regressed upstream version
deletes no tag regardless of flags, yet with the replace flag set this
run deletes the conflicting tag 1.0.0: the source guards the replace
path with less-or-equal, not equality. -/
theorem C2_regression_counterexample :
    parseStrictVersion "0.9.0" = some ⟨0, 9, 0, none⟩ ∧
    parseStrictVersion (lastTagVersionString env2.last_tag) = some ⟨1, 0, 0, none⟩ ∧
    svLT ⟨0, 9, 0, none⟩ ⟨1, 0, 0, none⟩ = true ∧
    args1.replace = true ∧
    Event.gitTagDelete "1.0.0" ∈ (import_upstream env2 args1 "/repo" "/tmp").1 := by
  exact ⟨rfl, rfl, rfl, rfl, by decide⟩

/-- C2 amended: when the new version is strictly below the last tag
version the regression warning is emitted; without the replace flag the
run continues to the import step and deletes no tag; with the replace
flag the collision path also fires for a strict regression, deleting
the tag when replacement is supported and returning 1 when it is
not. -/
theorem C2_regression_amended (env : Env) (args : Args) (cwd tmp_dir : String)
    (ev : List Event) (meta : Meta) (tp : String) (nv lv : StrictVer)
    (hpre : preGuard env args cwd tmp_dir = (ev, Except.ok (meta, tp)))
    (hlast : env.last_tag ≠ "")
    (hv : parseStrictVersion meta.version = some nv)
    (hl : parseStrictVersion (lastTagVersionString env.last_tag) = some lv)
    (hlt : svLT nv lv = true) :
    Event.regressionWarning ∈ (import_upstream env args cwd tmp_dir).1 ∧
    (args.replace = false →
      Event.importOrig (tp ++ ".tar.gz") args.interactive args.merge ∈
        (import_upstream env args cwd tmp_dir).1 ∧
      ∀ t, Event.gitTagDelete t ∉ (import_upstream env args cwd tmp_dir).1) ∧
    (args.replace = true → env.hasReplace = true →
      Event.gitTagDelete env.last_tag ∈ (import_upstream env args cwd tmp_dir).1) ∧
    (args.replace = true → env.hasReplace = false →
      (import_upstream env args cwd tmp_dir).2 = Outcome.finished (some 1)) := by
  have hle : svLE nv lv = true := by simp [svLE, hlt]
  have hreg : regressionEvents nv lv = [Event.regressionWarning] := by
    simp [regressionEvents, hlt]
  refine ⟨?_, ?_, ?_, ?_⟩
  · rcases hr : args.replace with _ | _
    · rw [import_eq_guard_ok env args cwd tmp_dir ev _ meta tp hpre
        (versionGuard_le_noreplace env args meta.version nv lv hlast hv hl hle hr)]
      simp [hreg]
    · rcases hh : env.hasReplace with _ | _
      · rw [import_eq_guard_err env args cwd tmp_dir ev _ meta tp _ hpre
          (versionGuard_le_replace_unsupported env args meta.version nv lv hlast hv hl
            hle hr hh)]
        simp [hreg]
      · rw [import_eq_guard_ok env args cwd tmp_dir ev _ meta tp hpre
          (versionGuard_le_replace_ok env args meta.version nv lv hlast hv hl hle hr hh)]
        simp [hreg]
  · intro hr
    rw [import_eq_guard_ok env args cwd tmp_dir ev _ meta tp hpre
      (versionGuard_le_noreplace env args meta.version nv lv hlast hv hl hle hr)]
    dsimp only
    refine ⟨List.mem_append_right _ (postGuard_importOrig_mem env args tp), ?_⟩
    intro t hmem
    rw [List.mem_append, List.mem_append] at hmem
    rcases hmem with (hmem | hmem) | hmem
    · have hk := preGuard_kinds env args cwd tmp_dir _ (by rw [hpre]; exact hmem)
      simp [eKind] at hk
    · rw [hreg] at hmem
      simp at hmem
    · have hk := postGuard_kinds env args tp _ hmem
      simp [eKind] at hk
  · intro hr hh
    rw [import_eq_guard_ok env args cwd tmp_dir ev _ meta tp hpre
      (versionGuard_le_replace_ok env args meta.version nv lv hlast hv hl hle hr hh)]
    simp
  · intro hr hh
    rw [import_eq_guard_err env args cwd tmp_dir ev _ meta tp _ hpre
      (versionGuard_le_replace_unsupported env args meta.version nv lv hlast hv hl
        hle hr hh)]

theorem C2_regression_amended_witness :
    env2.last_tag ≠ "" ∧
    Event.regressionWarning ∈ (import_upstream env2 args1 "/repo" "/tmp").1 := by
  have h := C2_regression_amended env2 args1 "/repo" "/tmp"
    [Event.trackBranches ["bloom", "upstream"],
     Event.chdir "/tmp/bloom_clone",
     Event.cloneRepo "file:///repo",
     Event.trackBranches ["bloom", "upstream"],
     Event.gitCheckout "bloom",
     Event.vcsCheckout "git" "http://example.com/repo" "",
     Event.findPackages,
     Event.exportRepo "0.9.0" "/tmp/upstream-0.9.0"]
    ⟨["pkg"], "0.9.0", "package.xml"⟩ "/tmp/upstream-0.9.0"
    ⟨0, 9, 0, none⟩ ⟨1, 0, 0, none⟩ (by rfl) (by decide) rfl rfl rfl
  exact ⟨by decide, h.1⟩


/-- The env1 repository with no prior upstream tag. -/
def env3 : Env := { env1 with last_tag := "" }

theorem C3_no_prior_tag_witness :
    env3.last_tag = "" ∧
    Event.importOrig "/tmp/upstream-1.0.0.tar.gz" false false ∈
      (import_upstream env3 args1 "/repo" "/tmp").1 := by
  have h := C3_no_prior_tag env3 args1 "/repo" "/tmp" preEv1 meta1 "/tmp/upstream-1.0.0"
    (by rfl) rfl
  exact ⟨rfl, h.2⟩

/-- The env1 repository whose upstream manifest declares the malformed
version 1.0.x. -/
def env5 : Env := { env1 with packages := [("pkg", "1.0.x")] }

theorem C5_strict_parse_witness :
    env5.last_tag ≠ "" ∧ parseStrictVersion "1.0.x" = none ∧
    (import_upstream env5 args1 "/repo" "/tmp").2 = Outcome.valueError := by
  have h := C5_strict_parse env5 args1 "/repo" "/tmp"
    [Event.trackBranches ["bloom", "upstream"],
     Event.chdir "/tmp/bloom_clone",
     Event.cloneRepo "file:///repo",
     Event.trackBranches ["bloom", "upstream"],
     Event.gitCheckout "bloom",
     Event.vcsCheckout "git" "http://example.com/repo" "",
     Event.findPackages,
     Event.exportRepo "1.0.x" "/tmp/upstream-1.0.x"]
    ⟨["pkg"], "1.0.x", "package.xml"⟩ "/tmp/upstream-1.0.x"
    (by rfl) (by decide) (Or.inl rfl)
  exact ⟨by decide, rfl, h⟩

theorem C8_import_orig_witness :
    env3.importOrigFails = false ∧
    Event.pushAllForce ∈ (import_upstream env3 args1 "/repo" "/tmp").1 ∧
    Event.pushTags ∈ (import_upstream env3 args1 "/repo" "/tmp").1 := by
  have h := C8_import_orig env3 args1 "/repo" "/tmp" preEv1 [] meta1 "/tmp/upstream-1.0.0"
    (by rfl) (by rfl)
  have h2 := h.2 rfl
  exact ⟨rfl, h2.1, h2.2.1⟩

/-- Arguments setting not-catkin with the upstream name flag missing. -/
def args4 : Args := {
  upstream_devel := none
  interactive := false
  merge := false
  replace := false
  not_catkin := true
  name := none
  tag := some "1.0.0" }

/-- The claim says a not-catkin run missing a name or tag flag fails
before any VCS access to the upstream repository, yet this failing run
contains the upstream checkout in its trace: the source checks the
flags only after the checkout. -/
theorem C4_not_catkin_counterexample :
    args4.not_catkin = true ∧ args4.name = none ∧
    Event.vcsCheckout "git" "http://example.com/repo" "" ∈
      (import_upstream env1 args4 "/repo" "/tmp").1 ∧
    (import_upstream env1 args4 "/repo" "/tmp").2 = Outcome.finished (some 1) := by
  exact ⟨rfl, rfl, by decide, by decide⟩

/-- C4 amended: a not-catkin run missing the name or tag flag returns 1
as a usage error and never inspects the upstream tree for manifests,
but only after the upstream checkout has been attempted. -/
theorem C4_not_catkin_amended (env : Env) (args : Args) (cwd tmp_dir : String)
    (ev1 : List Event)
    (hcfb : check_for_bloom env = (ev1, Except.ok ()))
    (hnc : args.not_catkin = true)
    (hmiss : args.name = none ∨ args.tag = none) :
    (import_upstream env args cwd tmp_dir).2 = Outcome.finished (some 1) ∧
    Event.findPackages ∉ (import_upstream env args cwd tmp_dir).1 ∧
    ∃ u w, Event.vcsCheckout env.upstream_type u w ∈
      (import_upstream env args cwd tmp_dir).1 := by
  have hmeta : metaPhase env args = ([], Except.error (Outcome.finished (some 1))) := by
    unfold metaPhase
    rw [if_pos hnc]
    rcases hmiss with hm | hm
    · rw [hm]
    · rw [hm]
      cases args.name <;> rfl
  obtain ⟨u, w, hcofst⟩ := checkoutPhase_fst env args
  rcases checkoutPhase_snd env args with hco | hco
  · have hco2 : checkoutPhase env args =
        ((checkoutPhase env args).1, Except.ok ()) := by
      rw [← hco]
    have hpre := preGuard_meta_err env args cwd tmp_dir ev1 (checkoutPhase env args).1 []
      (Outcome.finished (some 1)) hcfb hco2 hmeta
    rw [import_eq_pre_err env args cwd tmp_dir _ _ hpre]
    refine ⟨rfl, ?_, ?_⟩
    · intro hmem
      rw [List.append_nil, List.mem_append, List.mem_append] at hmem
      rcases hmem with (hmem | hmem) | hmem
      · have hk := cloneEvents_kinds cwd tmp_dir _ hmem
        simp [eKind] at hk
      · have hk := cfb_kinds env _ (by rw [hcfb]; exact hmem)
        simp [eKind] at hk
      · have hk := checkoutPhase_kinds env args _ hmem
        simp [eKind] at hk
    · refine ⟨u, w, ?_⟩
      rw [List.append_nil]
      exact List.mem_append_right _ (by rw [hcofst]; simp)
  · have hco2 : checkoutPhase env args =
        ((checkoutPhase env args).1, Except.error (Outcome.finished (some 1))) := by
      rw [← hco]
    have hpre := preGuard_checkout_err env args cwd tmp_dir ev1 (checkoutPhase env args).1
      (Outcome.finished (some 1)) hcfb hco2
    rw [import_eq_pre_err env args cwd tmp_dir _ _ hpre]
    refine ⟨rfl, ?_, ?_⟩
    · intro hmem
      rw [List.mem_append, List.mem_append] at hmem
      rcases hmem with (hmem | hmem) | hmem
      · have hk := cloneEvents_kinds cwd tmp_dir _ hmem
        simp [eKind] at hk
      · have hk := cfb_kinds env _ (by rw [hcfb]; exact hmem)
        simp [eKind] at hk
      · have hk := checkoutPhase_kinds env args _ hmem
        simp [eKind] at hk
    · exact ⟨u, w, List.mem_append_right _ (by rw [hcofst]; simp)⟩

theorem C4_not_catkin_amended_witness :
    args4.not_catkin = true ∧
    (import_upstream env1 args4 "/repo" "/tmp").2 = Outcome.finished (some 1) ∧
    Event.findPackages ∉ (import_upstream env1 args4 "/repo" "/tmp").1 := by
  have h := C4_not_catkin_amended env1 args4 "/repo" "/tmp"
    [Event.gitCheckout "bloom"] (by rfl) rfl (Or.inl rfl)
  exact ⟨rfl, h.1, h.2.1⟩


/-- A trunk checkout URL never coincides with a tags/name-version URL
of the same repository: after the shared repository prefix the paths
differ at their third character. -/
theorem trunk_ne_tags (repo n v : String) :
    repo ++ "/trunk" ≠ repo ++ "/tags/" ++ n ++ "-" ++ v := by
  intro hc
  have h := congrArg String.data hc
  simp only [String.data_append, List.append_assoc] at h
  have h2 := List.append_cancel_left h
  simp only [List.cons_append, List.nil_append] at h2
  injection h2 with h1 h2
  injection h2 with h1 h2
  injection h2 with h1 h2
  exact absurd h1 (by decide)

/-- A branches checkout URL never coincides with a tags/name-version
URL of the same repository. -/
theorem branches_ne_tags (repo b n v : String) :
    repo ++ "/branches/" ++ b ≠ repo ++ "/tags/" ++ n ++ "-" ++ v := by
  intro hc
  have h := congrArg String.data hc
  simp only [String.data_append, List.append_assoc] at h
  have h2 := List.append_cancel_left h
  simp only [List.cons_append, List.nil_append] at h2
  injection h2 with h1 h2
  injection h2 with h1 h2
  exact absurd h1 (by decide)

/-- The two candidate svn tag URLs of the export section differ: the
name-version form is strictly longer. -/
theorem tags_version_ne_name_version (repo n v : String) :
    repo ++ "/tags/" ++ v ≠ repo ++ "/tags/" ++ n ++ "-" ++ v := by
  intro hc
  have h := congrArg String.length hc
  simp only [String.length_append] at h
  rw [show ("-" : String).length = 1 from rfl] at h
  omega

/-- For an svn upstream the single checkout event uses either the
trunk URL or a branches URL. -/
theorem checkoutPhase_svn_shape (env : Env) (args : Args)
    (htype : env.upstream_type = "svn") :
    (checkoutPhase env args).1 =
      [Event.vcsCheckout "svn" (env.upstream_repo ++ "/trunk") ""] ∨
    ∃ b, (checkoutPhase env args).1 =
      [Event.vcsCheckout "svn" (env.upstream_repo ++ "/branches/" ++ b) ""] := by
  unfold checkoutPhase
  dsimp only
  rw [htype]
  simp only [reduceIte]
  split
  · left
    rfl
  · split
    · left
      rfl
    · right
      exact ⟨_, rfl⟩

/-- Provenance of checkout attempts: in a run whose bloom check,
upstream checkout and metadata resolution succeed, every vcsCheckout
event of the whole trace was emitted either by the upstream checkout
section or by the export section. -/
theorem import_vcs_events (env : Env) (args : Args) (cwd tmp_dir : String)
    (ev1 ev3 : List Event) (meta : Meta)
    (hcfb : check_for_bloom env = (ev1, Except.ok ()))
    (hco : (checkoutPhase env args).2 = Except.ok ())
    (hm : metaPhase env args = (ev3, Except.ok meta)) :
    ∀ e ∈ (import_upstream env args cwd tmp_dir).1, eKind e = 9 →
      e ∈ (checkoutPhase env args).1 ∨ e ∈ (exportPhase env meta tmp_dir).1 := by
  have hco2 : checkoutPhase env args = ((checkoutPhase env args).1, Except.ok ()) := by
    rw [← hco]
  intro e he hk
  rcases hx : exportPhase env meta tmp_dir with ⟨ev4, r4⟩
  cases r4 with
  | error o =>
    have hpre := preGuard_export_err env args cwd tmp_dir ev1 (checkoutPhase env args).1
      ev3 ev4 meta o hcfb hco2 hm hx
    rw [import_eq_pre_err env args cwd tmp_dir _ _ hpre] at he
    dsimp only at he
    rw [List.mem_append, List.mem_append, List.mem_append, List.mem_append] at he
    rcases he with (((he | he) | he) | he) | he
    · have h2 := cloneEvents_kinds cwd tmp_dir _ he
      omega
    · have h2 := cfb_kinds env _ (by rw [hcfb]; exact he)
      omega
    · exact Or.inl he
    · have h2 := metaPhase_kinds env args _ (by rw [hm]; exact he)
      omega
    · exact Or.inr he
  | ok tp =>
    have hpre := preGuard_all_ok env args cwd tmp_dir ev1 (checkoutPhase env args).1
      ev3 ev4 meta tp hcfb hco2 hm hx
    rcases hg : versionGuard env args meta.version with ⟨ev2, r2⟩
    cases r2 with
    | error o =>
      rw [import_eq_guard_err env args cwd tmp_dir _ ev2 meta tp o hpre hg] at he
      dsimp only at he
      rw [List.mem_append] at he
      rcases he with he | he
      · rw [List.mem_append, List.mem_append, List.mem_append, List.mem_append] at he
        rcases he with (((he | he) | he) | he) | he
        · have h2 := cloneEvents_kinds cwd tmp_dir _ he
          omega
        · have h2 := cfb_kinds env _ (by rw [hcfb]; exact he)
          omega
        · exact Or.inl he
        · have h2 := metaPhase_kinds env args _ (by rw [hm]; exact he)
          omega
        · exact Or.inr he
      · have h2 := versionGuard_kinds env args meta.version _ (by rw [hg]; exact he)
        omega
    | ok u =>
      cases u
      rw [import_eq_guard_ok env args cwd tmp_dir _ ev2 meta tp hpre hg] at he
      dsimp only at he
      rw [List.mem_append, List.mem_append] at he
      rcases he with (he | he) | he
      · rw [List.mem_append, List.mem_append, List.mem_append, List.mem_append] at he
        rcases he with (((he | he) | he) | he) | he
        · have h2 := cloneEvents_kinds cwd tmp_dir _ he
          omega
        · have h2 := cfb_kinds env _ (by rw [hcfb]; exact he)
          omega
        · exact Or.inl he
        · have h2 := metaPhase_kinds env args _ (by rw [hm]; exact he)
          omega
        · exact Or.inr he
      · have h2 := versionGuard_kinds env args meta.version _ (by rw [hg]; exact he)
        omega
      · have h2 := postGuard_kinds env args tp _ he
        omega


/-- C6: for an svn upstream, the checkout URL is repo/trunk with no
branch configured and repo/branches/b with branch b configured; the tag
export attempts repo/tags/version first and repo/tags/name-version only
on failure of the first: when the first succeeds the name-version URL
is attempted nowhere in the whole run, on fallback both attempts appear
and the export step is reached, and when both fail the run returns 1
with no export. -/
theorem C6_svn_paths (env : Env) (args : Args) (cwd tmp_dir : String)
    (ev1 : List Event)
    (htype : env.upstream_type = "svn")
    (hcfb : check_for_bloom env = (ev1, Except.ok ())) :
    ((args.upstream_devel = none ∧ env.upstream_branch = "") →
      Event.vcsCheckout "svn" (env.upstream_repo ++ "/trunk") "" ∈
        (import_upstream env args cwd tmp_dir).1) ∧
    (∀ b, args.upstream_devel = none → env.upstream_branch = b → b ≠ "" →
      b ≠ "(No branch set)" →
      Event.vcsCheckout "svn" (env.upstream_repo ++ "/branches/" ++ b) "" ∈
        (import_upstream env args cwd tmp_dir).1) ∧
    (∀ ev3 meta, metaPhase env args = (ev3, Except.ok meta) →
      (checkoutPhase env args).2 = Except.ok () →
      (env.vcsCheckoutOk (env.upstream_repo ++ "/tags/" ++ meta.version) "" = true →
        Event.vcsCheckout "svn" (env.upstream_repo ++ "/tags/" ++ meta.version) "" ∈
          (import_upstream env args cwd tmp_dir).1 ∧
        Event.exportRepo "" (tmp_dir ++ "/upstream-" ++ meta.version) ∈
          (import_upstream env args cwd tmp_dir).1 ∧
        Event.vcsCheckout "svn" (env.upstream_repo ++ "/tags/" ++
          meta.names.headD "" ++ "-" ++ meta.version) "" ∉
          (import_upstream env args cwd tmp_dir).1) ∧
      (env.vcsCheckoutOk (env.upstream_repo ++ "/tags/" ++ meta.version) "" = false →
        env.vcsCheckoutOk (env.upstream_repo ++ "/tags/" ++ meta.names.headD "" ++
          "-" ++ meta.version) "" = true →
        Event.vcsCheckout "svn" (env.upstream_repo ++ "/tags/" ++ meta.version) "" ∈
          (import_upstream env args cwd tmp_dir).1 ∧
        Event.vcsCheckout "svn" (env.upstream_repo ++ "/tags/" ++
          meta.names.headD "" ++ "-" ++ meta.version) "" ∈
          (import_upstream env args cwd tmp_dir).1 ∧
        Event.exportRepo "" (tmp_dir ++ "/upstream-" ++ meta.version) ∈
          (import_upstream env args cwd tmp_dir).1) ∧
      (env.vcsCheckoutOk (env.upstream_repo ++ "/tags/" ++ meta.version) "" = false →
        env.vcsCheckoutOk (env.upstream_repo ++ "/tags/" ++ meta.names.headD "" ++
          "-" ++ meta.version) "" = false →
        Event.vcsCheckout "svn" (env.upstream_repo ++ "/tags/" ++ meta.version) "" ∈
          (import_upstream env args cwd tmp_dir).1 ∧
        Event.vcsCheckout "svn" (env.upstream_repo ++ "/tags/" ++
          meta.names.headD "" ++ "-" ++ meta.version) "" ∈
          (import_upstream env args cwd tmp_dir).1 ∧
        (import_upstream env args cwd tmp_dir).2 = Outcome.finished (some 1) ∧
        ∀ v p, Event.exportRepo v p ∉ (import_upstream env args cwd tmp_dir).1)) := by
  refine ⟨?_, ?_, ?_⟩
  · rintro ⟨hdevel, hbr⟩
    have hcp : (checkoutPhase env args).1 =
        [Event.vcsCheckout "svn" (env.upstream_repo ++ "/trunk") ""] := by
      simp [checkoutPhase, hdevel, hbr, htype]
    exact preGuard_trace_sub env args cwd tmp_dir _
      (checkout_events_in_preGuard env args cwd tmp_dir ev1 hcfb _ (by rw [hcp]; simp))
  · intro b hdevel hbr hb1 hb2
    have hcp : (checkoutPhase env args).1 =
        [Event.vcsCheckout "svn" (env.upstream_repo ++ "/branches/" ++ b) ""] := by
      simp [checkoutPhase, hdevel, hbr, htype, hb2, hb1]
    exact preGuard_trace_sub env args cwd tmp_dir _
      (checkout_events_in_preGuard env args cwd tmp_dir ev1 hcfb _ (by rw [hcp]; simp))
  · intro ev3 meta hm hco
    simp only [List.headD_eq_head?] at *
    have hco2 : checkoutPhase env args =
        ((checkoutPhase env args).1, Except.ok ()) := by
      rw [← hco]
    refine ⟨?_, ?_, ?_⟩
    · intro hok1
      have hxp : (exportPhase env meta tmp_dir).1 =
          [Event.vcsCheckout "svn" (env.upstream_repo ++ "/tags/" ++ meta.version) "",
           Event.exportRepo "" (tmp_dir ++ "/upstream-" ++ meta.version)] := by
        simp [exportPhase, htype, hok1, exportTail]
      refine ⟨?_, ?_, ?_⟩
      · exact preGuard_trace_sub env args cwd tmp_dir _
          (export_events_in_preGuard env args cwd tmp_dir ev1 _ ev3 meta hcfb hco2 hm _
            (by rw [hxp]; simp))
      · exact preGuard_trace_sub env args cwd tmp_dir _
          (export_events_in_preGuard env args cwd tmp_dir ev1 _ ev3 meta hcfb hco2 hm _
            (by rw [hxp]; simp))
      · intro hmem
        rcases import_vcs_events env args cwd tmp_dir ev1 ev3 meta hcfb hco hm _
            hmem rfl with hin | hin
        · rcases checkoutPhase_svn_shape env args htype with hs | ⟨b, hs⟩
          · rw [hs] at hin
            simp only [List.mem_singleton] at hin
            injection hin with hv1 hv2 hv3
            exact trunk_ne_tags env.upstream_repo _ meta.version hv2.symm
          · rw [hs] at hin
            simp only [List.mem_singleton] at hin
            injection hin with hv1 hv2 hv3
            exact branches_ne_tags env.upstream_repo b _ meta.version hv2.symm
        · rw [hxp] at hin
          simp only [List.mem_cons, List.mem_singleton, List.not_mem_nil, or_false] at hin
          rcases hin with hin | hin
          · injection hin with hv1 hv2 hv3
            exact tags_version_ne_name_version env.upstream_repo _ meta.version hv2.symm
          · simp at hin
    · intro hf1 hok2
      have hxp : (exportPhase env meta tmp_dir).1 =
          [Event.vcsCheckout "svn" (env.upstream_repo ++ "/tags/" ++ meta.version) "",
           Event.vcsCheckout "svn" (env.upstream_repo ++ "/tags/" ++
             meta.names.head?.getD "" ++ "-" ++ meta.version) "",
           Event.exportRepo "" (tmp_dir ++ "/upstream-" ++ meta.version)] := by
        simp [exportPhase, htype, hf1, hok2, exportTail]
      refine ⟨?_, ?_, ?_⟩ <;>
        exact preGuard_trace_sub env args cwd tmp_dir _
          (export_events_in_preGuard env args cwd tmp_dir ev1 _ ev3 meta hcfb hco2 hm _
            (by rw [hxp]; simp))
    · intro hf1 hf2
      have hxp : exportPhase env meta tmp_dir =
          ([Event.vcsCheckout "svn" (env.upstream_repo ++ "/tags/" ++ meta.version) "",
            Event.vcsCheckout "svn" (env.upstream_repo ++ "/tags/" ++
              meta.names.head?.getD "" ++ "-" ++ meta.version) ""],
           Except.error (Outcome.finished (some 1))) := by
        simp [exportPhase, htype, hf1, hf2, exportTail]
      have hpre := preGuard_export_err env args cwd tmp_dir ev1 (checkoutPhase env args).1
        ev3 _ meta _ hcfb hco2 hm hxp
      rw [import_eq_pre_err env args cwd tmp_dir _ _ hpre]
      refine ⟨by simp, by simp, rfl, ?_⟩
      intro v p hmem
      rw [List.mem_append, List.mem_append, List.mem_append] at hmem
      rcases hmem with ((hmem | hmem) | hmem) | hmem
      · rw [List.mem_append] at hmem
        rcases hmem with hmem | hmem
        · have hk := cloneEvents_kinds cwd tmp_dir _ hmem
          simp [eKind] at hk
        · have hk := cfb_kinds env _ (by rw [hcfb]; exact hmem)
          simp [eKind] at hk
      · have hk := checkoutPhase_kinds env args _ hmem
        simp [eKind] at hk
      · have hk := metaPhase_kinds env args _ (by rw [hm]; exact hmem)
        simp [eKind] at hk
      · simp at hmem

/-- The env1 repository with an svn upstream and version 2.1.0. -/
def env6 : Env := { env1 with
  upstream_type := "svn"
  packages := [("pkg", "2.1.0")]
  last_tag := "" }

theorem C6_svn_paths_witness :
    env6.upstream_type = "svn" ∧
    Event.vcsCheckout "svn" "http://example.com/repo/trunk" "" ∈
      (import_upstream env6 args1 "/repo" "/tmp").1 ∧
    Event.exportRepo "" "/tmp/upstream-2.1.0" ∈
      (import_upstream env6 args1 "/repo" "/tmp").1 ∧
    Event.vcsCheckout "svn" "http://example.com/repo/tags/pkg-2.1.0" "" ∉
      (import_upstream env6 args1 "/repo" "/tmp").1 := by
  have h := C6_svn_paths env6 args1 "/repo" "/tmp" [Event.gitCheckout "bloom"] rfl
    (by rfl)
  have h3 := h.2.2 [Event.findPackages] ⟨["pkg"], "2.1.0", "package.xml"⟩ (by rfl) rfl
  have h31 := h3.1 rfl
  exact ⟨rfl, h.1 ⟨rfl, rfl⟩, h31.2.1, h31.2.2⟩

/-- C7: when metadata resolution runs on a tree with two manifests
declaring different versions, the run exits via sys.exit(1) and no
export is performed anywhere in the run. -/
theorem C7_version_conflict (env : Env) (args : Args) (cwd tmp_dir : String)
    (ev1 : List Event) (p q : String × String)
    (hcfb : check_for_bloom env = (ev1, Except.ok ()))
    (hco : (checkoutPhase env args).2 = Except.ok ())
    (hnc : args.not_catkin = false)
    (hp : p ∈ env.packages) (hq : q ∈ env.packages) (hne : p.2 ≠ q.2) :
    (import_upstream env args cwd tmp_dir).2 = Outcome.sysExit 1 ∧
    ∀ v pa, Event.exportRepo v pa ∉ (import_upstream env args cwd tmp_dir).1 := by
  have hver : verify_equal_package_versions env.packages = none := by
    rcases hvv : verify_equal_package_versions env.packages with _ | v
    · rfl
    · exact absurd ((verify_eq_some env.packages v hvv p hp).trans
        (verify_eq_some env.packages v hvv q hq).symm) hne
  have hne2 : ¬env.packages = [] := by
    intro h
    rw [h] at hp
    cases hp
  have hmeta : metaPhase env args =
      ([Event.findPackages], Except.error (Outcome.sysExit 1)) := by
    unfold metaPhase
    rw [if_neg (by simp [hnc])]
    unfold get_upstream_meta
    rw [if_neg hne2, hver]
  have hco2 : checkoutPhase env args = ((checkoutPhase env args).1, Except.ok ()) := by
    rw [← hco]
  have hpre := preGuard_meta_err env args cwd tmp_dir ev1 (checkoutPhase env args).1
    [Event.findPackages] (Outcome.sysExit 1) hcfb hco2 hmeta
  rw [import_eq_pre_err env args cwd tmp_dir _ _ hpre]
  refine ⟨rfl, ?_⟩
  intro v pa hmem
  rw [List.mem_append, List.mem_append, List.mem_append] at hmem
  rcases hmem with ((hmem | hmem) | hmem) | hmem
  · have hk := cloneEvents_kinds cwd tmp_dir _ hmem
    simp [eKind] at hk
  · have hk := cfb_kinds env _ (by rw [hcfb]; exact hmem)
    simp [eKind] at hk
  · have hk := checkoutPhase_kinds env args _ hmem
    simp [eKind] at hk
  · simp at hmem

/-- The env1 repository whose upstream tree has two manifests with
versions 1.0.0 and 1.0.1. -/
def env7 : Env := { env1 with packages := [("a", "1.0.0"), ("b", "1.0.1")] }

theorem C7_version_conflict_witness :
    ("a", "1.0.0") ∈ env7.packages ∧ ("b", "1.0.1") ∈ env7.packages ∧
    (import_upstream env7 args1 "/repo" "/tmp").2 = Outcome.sysExit 1 := by
  have h := C7_version_conflict env7 args1 "/repo" "/tmp" [Event.gitCheckout "bloom"]
    ("a", "1.0.0") ("b", "1.0.1") rfl rfl rfl (by decide) (by decide) (by decide)
  exact ⟨by decide, by decide, h.1⟩

/-- C9: once a run passes the git-root and current-branch precondition
checks, the try/finally cleanup restores the working directory, removes
the temporary directory, and checks the original branch out again when
it is nonempty and still exists, and this happens whatever the body
outcome, which is passed through unchanged. -/
theorem C9_cleanup (menv : MainEnv) (env : Env) (args : Args) (cwd tmp_dir : String)
    (hroot : menv.rootOk = true)
    (hbr : menv.current_branch ≠ some "upstream") :
    Event.chdir cwd ∈ (main menv env args cwd tmp_dir).1 ∧
    Event.rmtree tmp_dir ∈ (main menv env args cwd tmp_dir).1 ∧
    (∀ b, menv.current_branch = some b → b ≠ "" → menv.branchExistsAtEnd b = true →
      Event.gitCheckout b ∈ (main menv env args cwd tmp_dir).1) ∧
    (main menv env args cwd tmp_dir).2 = (import_upstream env args cwd tmp_dir).2 := by
  have hmain : main menv env args cwd tmp_dir =
      ((import_upstream env args cwd tmp_dir).1 ++
        ([Event.chdir cwd, Event.rmtree tmp_dir] ++
         (match menv.current_branch with
          | some b =>
            if b ≠ "" ∧ menv.branchExistsAtEnd b then [Event.gitCheckout b] else []
          | none => [])),
       (import_upstream env args cwd tmp_dir).2) := by
    unfold main
    rw [if_neg (by simp [hroot]), if_neg hbr]
  rw [hmain]
  refine ⟨by simp, by simp, ?_, rfl⟩
  intro b hb hbne hex
  rw [hb]
  dsimp only
  rw [if_pos ⟨hbne, hex⟩]
  simp

theorem C9_cleanup_witness :
    Event.chdir "/repo" ∈
      (main ⟨true, some "master", fun _ => true⟩ env1 args1 "/repo" "/tmp").1 ∧
    Event.rmtree "/tmp" ∈
      (main ⟨true, some "master", fun _ => true⟩ env1 args1 "/repo" "/tmp").1 ∧
    Event.gitCheckout "master" ∈
      (main ⟨true, some "master", fun _ => true⟩ env1 args1 "/repo" "/tmp").1 := by
  have h := C9_cleanup ⟨true, some "master", fun _ => true⟩ env1 args1 "/repo" "/tmp"
    rfl (by simp)
  exact ⟨h.1, h.2.1, h.2.2.1 "master" rfl (by simp) rfl⟩

/-- The env1 repository whose only branch is named bloomer. -/
def envBloomer : Env := { env1 with branchesOutput := "* bloomer" }

/-- The env1 repository whose branch listing before the upstream-branch
check shows only a branch named upstreamer. -/
def envUpstreamer : Env := { env1 with branchesOutput2 := "* upstreamer" }

/-- C10: branch presence is substring counting on the git branch
output, not exact matching: a repository whose only branch is bloomer
passes the bloom presence test of the validator, and a listing with
only upstreamer makes the importer skip creating the orphan upstream
branch, although neither listing contains the exact branch name. -/
theorem C10_substring_branch_check :
    (check_for_bloom envBloomer).2 = Except.ok () ∧
    countSub envBloomer.branchesOutput "bloom" ≠ 0 ∧
    "bloom" ∉ exactBranchNames envBloomer.branchesOutput ∧
    Event.createUpstreamBranch ∉ (postGuard envUpstreamer args1 "/tmp/upstream-1.0.0").1 ∧
    countSub envUpstreamer.branchesOutput2 "upstream" ≠ 0 ∧
    "upstream" ∉ exactBranchNames envUpstreamer.branchesOutput2 := by
  exact ⟨rfl, by decide, by decide, by decide, by decide, by decide⟩

end Bloom
